import Mathlib

/-!
Verification of the git-sizer command-line front end.

This development shallowly embeds the two source files of the repository:

* `git-sizer.go` — the option values (`filterValue`, `NegatedBoolValue`),
  `main`, and `mainImplementation`;
* `git/git.go` — `smartJoin`, `GitDir`, `IsShallow`, `NewRepository`.

External collaborators (the `git` reference-filter combinators, the `sizes`
package, the operating system, the `git` executable) are not part of the
source tree; where a property depends on them they are modelled from the
specification, each such definition carrying a doc comment that starts with
`Modelled from the spec:`.  All other definitions are direct transliterations
of the Go source.  Effects (file system, process execution, stdout/stderr)
are represented by explicit oracles and event traces.
-/

namespace GitSizer

/-! ## Reference filters -/

/-- A reference filter is a boolean predicate on a reference name
(spec: `Filter(referenceName: string) → bool`). -/
def ReferenceFilter := String → Bool

/-- Polarity of a filter rule (the Go `git.Polarity` with constants
`git.Include` and `git.Exclude`). -/
inductive Polarity where
  | Include
  | Exclude
  deriving DecidableEq, Repr

/-- Modelled from the spec: the missing `git.Polarity.Inverted` swaps the
`include` and `exclude` polarities (used when a fixed-pattern option such as
`--branches` is given the value `false`). -/
def Polarity.Inverted : Polarity → Polarity
  | .Include => .Exclude
  | .Exclude => .Include

/-- Modelled from the spec: the missing `git.IncludeExcludeFilter` is an
ordered rule list, each rule an (polarity, pattern predicate) pair. -/
structure IncludeExcludeFilter where
  rules : List (Polarity × ReferenceFilter)

/-- The empty filter (the zero value of `git.IncludeExcludeFilter`, as
declared by `var filter git.IncludeExcludeFilter` in `mainImplementation`). -/
def IncludeExcludeFilter.empty : IncludeExcludeFilter := ⟨[]⟩

/-- Modelled from the spec: `git.IncludeExcludeFilter.Include` appends an
include rule at the end of the ordered rule list. -/
def IncludeExcludeFilter.Include (f : IncludeExcludeFilter) (flt : ReferenceFilter) :
    IncludeExcludeFilter :=
  ⟨f.rules ++ [(Polarity.Include, flt)]⟩

/-- Modelled from the spec: `git.IncludeExcludeFilter.Exclude` appends an
exclude rule at the end of the ordered rule list. -/
def IncludeExcludeFilter.Exclude (f : IncludeExcludeFilter) (flt : ReferenceFilter) :
    IncludeExcludeFilter :=
  ⟨f.rules ++ [(Polarity.Exclude, flt)]⟩

/-- Modelled from the spec: the missing `git.IncludeExcludeFilter.Filter`
walks the ordered rule list, every matching rule overwriting the running
decision, starting from the excluded-by-default decision. -/
def IncludeExcludeFilter.Filter (f : IncludeExcludeFilter) (refname : String) : Bool :=
  f.rules.foldl (fun acc r => if r.2 refname then decide (r.1 = Polarity.Include) else acc) false

/-- The wording of the specification for the decision procedure: the last rule
whose pattern matches the name decides; if no rule matches, the reference is
excluded.  Stated independently of `IncludeExcludeFilter.Filter` so the two
can be compared. -/
def lastMatchDecision (rules : List (Polarity × ReferenceFilter)) (refname : String) : Bool :=
  match rules.reverse.find? (fun r => r.2 refname) with
  | some r => decide (r.1 = Polarity.Include)
  | none => false

/-- Modelled from the spec: the missing `git.PrefixFilter` matches a name
that equals the pattern or extends it at a path-segment boundary
(`refs/foo` matches `refs/foo` and `refs/foo/bar` but not `refs/foobar`).
The Go function of the standard library that tests a string head is
rendered as character-list matching. -/
def PrefixFilter (p : String) : ReferenceFilter :=
  fun refname => refname == p || (p ++ "/").toList.isPrefixOf refname.toList

/-- Modelled from the spec: compiling a regular expression may fail
(`git.RegexpFilter` returns an error for an ill-formed pattern); a compiler
is a function returning `none` on failure and a full-string matching
predicate on success. -/
def RegexpCompiler := String → Option ReferenceFilter

/-- The Go function `strconv.ParseBool`: the exact set of accepted literals. -/
def parseBool (s : String) : Option Bool :=
  match s with
  | "1" | "t" | "T" | "true" | "TRUE" | "True" => some true
  | "0" | "f" | "F" | "false" | "FALSE" | "False" => some false
  | _ => none

/-- The Go `%q` verb on a string argument, simplified to surrounding double
quotes (the claims only depend on the fixed message text before it). -/
def quoteArg (s : String) : String := "\x22" ++ s ++ "\x22"

/-- The option value state of `filterValue` in `git-sizer.go` minus the
shared pointer to the filter under construction, which is passed
explicitly. -/
structure FilterOpt where
  polarity : Polarity
  pattern : String
  regexp : Bool

/-- Transliteration of `filterValue.Set` from `git-sizer.go` (lines 111-152).
The pointer `v.filter` of the Go receiver becomes an explicit state argument `st`; the result is the
updated filter, or the error that Go would return.  The regexp compiler is an
oracle for the missing `git.RegexpFilter`. -/
def filterValue.Set (compile : RegexpCompiler) (v : FilterOpt)
    (st : IncludeExcludeFilter) (s : String) : Except String IncludeExcludeFilter :=
  let polPat : Except String (Polarity × String) :=
    if v.pattern ≠ "" then
      match parseBool s with
      | none => .error ("invalid syntax: " ++ quoteArg s)
      | some b => .ok (if b then v.polarity else v.polarity.Inverted, v.pattern)
    else
      .ok (v.polarity, s)
  match polPat with
  | .error e => .error e
  | .ok (polarity, pat) =>
    let flt : Except String ReferenceFilter :=
      if v.regexp then
        match compile pat with
        | none => .error ("invalid regexp: " ++ quoteArg s)
        | some f => .ok f
      else
        .ok (PrefixFilter pat)
    match flt with
    | .error e => .error e
    | .ok f =>
      match polarity with
      | .Include => .ok (st.Include f)
      | .Exclude => .ok (st.Exclude f)

/-- A concrete regexp-compiler oracle that rejects every pattern; fixed-pattern
and literal-prefix options never consult it. -/
def noCompile : RegexpCompiler := fun _ => none

/-! ## Concern engine (the `sizes` package is not under `src/`) -/

/-- Modelled from the spec: the calibration of the Concern Engine — a fixed
logarithmic base shared across metrics and a per-metric reasonable baseline
(the spec leaves the specific constants configurable). -/
structure ConcernConfig where
  base : Nat
  reasonable : String → Nat

/-- Modelled from the spec: severity is `floor(log_base(value / reasonable))`
clamped at 0 — a pure, deterministic function.  On naturals,
`Nat.log base (value / reasonable)` is exactly that: `Nat.log` of the
truncated quotient equals the floor of the real logarithm of the real
quotient because the comparison thresholds `base ^ k` are integers, and
`Nat.log` of `0` (any value below the baseline) is `0`. -/
def ConcernConfig.Severity (c : ConcernConfig) (metric : String) (value : Nat) : Nat :=
  Nat.log c.base (value / c.reasonable metric)

/-- A concrete concern-engine calibration (doubling scale, baseline 1). -/
def cfg0 : ConcernConfig := ⟨2, fun _ => 1⟩

/-! ## The `sizes` report-surface boundary -/

/-- The type `sizes.NameStyle` (declared in `mainImplementation`; the type is
not under `src/`): the three name-disclosure styles of the usage text. -/
inductive NameStyle where
  | NameStyleNone
  | NameStyleHash
  | NameStyleFull
  deriving DecidableEq, Repr

/-- Modelled from the spec: the frozen aggregate produced by
`sizes.ScanRepositoryUsingGraph`; its contents are irrelevant to the
CLI-boundary claims, so it is abstracted to a single tag. -/
structure HistorySize where
  tag : Nat
  deriving DecidableEq, Repr

/-- The threshold value written by `--verbose` (`git-sizer.go` line 274:
`sizes.NewThresholdFlagValue(&threshold, 0)`). -/
def verboseThreshold : Nat := 0

/-- The threshold value written by `--critical` (`git-sizer.go` line 286:
`sizes.NewThresholdFlagValue(&threshold, 30)`). -/
def criticalThreshold : Nat := 30

/-- Modelled from the spec: a report row is emitted exactly when its severity
is at least the caller-supplied minimum threshold.  `sizes.Threshold` is a
non-negative integer, rendered here as `Nat`. -/
def rowEmitted (threshold severity : Nat) : Bool := decide (threshold ≤ severity)

/-! ## The CLI surface: `main` and `mainImplementation` -/

/-- Observable effects of a run, in order of occurrence. -/
inductive Event where
  | createdProfile
  | stdoutWrite (s : String)
  | stderrWrite (s : String)
  | repoOpened
  | scanStarted
  deriving DecidableEq, Repr

/-- The option variables of `mainImplementation` (`git-sizer.go` lines
181-189) after flag parsing, plus `flags.Args()` (the positional
arguments). -/
structure Options where
  nameStyle : NameStyle
  cpuprofile : String
  jsonOutput : Bool
  jsonVersion : Nat
  threshold : Nat
  progress : Bool
  version : Bool
  filter : IncludeExcludeFilter
  showRefs : Bool
  excessArgs : List String

/-- The defaults assigned by `mainImplementation` before parsing:
`NameStyleFull`, no profile, no JSON, version 1, threshold 1, no version
request, empty filter, no show-refs, no positional arguments. -/
def Options.default : Options :=
  ⟨NameStyle.NameStyleFull, "", false, 1, 1, false, false, IncludeExcludeFilter.empty, false, []⟩

/-- Modelled from the spec: `sizes.NewThresholdFlagValue(&threshold, v)`
builds a flag that, when set, assigns the fixed value `v` to the threshold
variable. -/
def thresholdFlagSet (v : Nat) (opts : Options) : Options :=
  ⟨opts.nameStyle, opts.cpuprofile, opts.jsonOutput, opts.jsonVersion, v,
    opts.progress, opts.version, opts.filter, opts.showRefs, opts.excessArgs⟩

/-- The effect of the `--verbose` flag on the options. -/
def applyVerbose (opts : Options) : Options := thresholdFlagSet verboseThreshold opts

/-- The effect of the `--critical` flag on the options. -/
def applyCritical (opts : Options) : Options := thresholdFlagSet criticalThreshold opts

/-- The same options with the `--show-refs` flag forced to `b`. -/
def Options.withShowRefs (opts : Options) (b : Bool) : Options :=
  ⟨opts.nameStyle, opts.cpuprofile, opts.jsonOutput, opts.jsonVersion, opts.threshold,
    opts.progress, opts.version, opts.filter, b, opts.excessArgs⟩

/-- Oracles for the external collaborators of `mainImplementation`: the two
version globals, profile-file creation, `git.NewRepository`,
`sizes.ScanRepositoryUsingGraph` (consuming the reference-filter decision
function), the two JSON encoders, and the table renderer. -/
structure World where
  releaseVersion : String
  buildVersion : String
  createProfileFile : Except String Unit
  repoOpen : Except String Unit
  scan : (String → Bool) → Except String HistorySize
  jsonV1 : HistorySize → Except String String
  jsonV2 : HistorySize → Nat → NameStyle → Except String String
  tableString : HistorySize → Nat → NameStyle → String

/-- Outcome of `flags.Parse` (pflag is an external collaborator): the parsed
options, the `pflag.ErrHelp` sentinel, or a parse error (as produced, for
example, by a failing `filterValue.Set`). -/
inductive ParseResult where
  | ok (opts : Options)
  | errHelp
  | err (e : String)

/-- The version line printed by `mainImplementation` (lines 338-345). -/
def versionString (w : World) : String :=
  if w.releaseVersion ≠ "" then "git-sizer release " ++ w.releaseVersion ++ "\n"
  else "git-sizer build " ++ w.buildVersion ++ "\n"

/-- The header printed by the `--show-refs` branch (line 363). -/
def showRefsHeader : String :=
  "References (included references marked with \x27+\x27):\n"

/-- The `--show-refs` wrapper installed around the reference filter
(`git-sizer.go` lines 364-372): it calls the underlying filter, writes one
line to stderr, and returns the underlying boolean unchanged. -/
def showRefsFilter (f : String → Bool) (refname : String) : Bool × Event :=
  let b := f refname
  if b then (b, Event.stderrWrite ("+ " ++ refname ++ "\n"))
  else (b, Event.stderrWrite ("  " ++ refname ++ "\n"))

/-- Transliteration of `mainImplementation` from `git-sizer.go` (lines
180-400), from the call
to `flags.Parse` on: the returned `error` becomes the `Except` component and
the externally visible actions become the ordered event list.  Branches
mirror the source: the JSON-version guard (line 325), cpuprofile setup
(329), the `--version` early return (338), the excess-argument check (347),
`git.NewRepository` (351), the `--show-refs` wrapper (361), the scan (375),
and JSON/table output (380-397). -/
def mainImplementation (pr : ParseResult) (w : World) : Except String Unit × List Event :=
  match pr with
  | .err e => (.error e, [])
  | .errHelp => (.ok (), [])
  | .ok opts =>
    if opts.jsonOutput && !(opts.jsonVersion == 1 || opts.jsonVersion == 2) then
      (.error "JSON version must be 1 or 2", [])
    else
      match (if opts.cpuprofile ≠ "" then w.createProfileFile else .ok ()) with
      | .error e => (.error ("couldn\x27t set up cpuprofile file: " ++ e), [])
      | .ok _ =>
        let ev0 : List Event := if opts.cpuprofile ≠ "" then [.createdProfile] else []
        if opts.version then
          (.ok (), ev0 ++ [.stdoutWrite (versionString w)])
        else if opts.excessArgs ≠ [] then
          (.error "excess arguments", ev0)
        else
          match w.repoOpen with
          | .error e => (.error ("couldn\x27t open Git repository: " ++ e), ev0)
          | .ok _ =>
            let ev1 := ev0 ++ [Event.repoOpened]
            let refFilter : String → Bool := opts.filter.Filter
            let ev2 := if opts.showRefs then ev1 ++ [Event.stderrWrite showRefsHeader] else ev1
            let decision : String → Bool :=
              if opts.showRefs then fun n => (showRefsFilter refFilter n).1 else refFilter
            let ev3 := ev2 ++ [Event.scanStarted]
            match w.scan decision with
            | .error e => (.error ("error scanning repository: " ++ e), ev3)
            | .ok historySize =>
              if opts.jsonOutput then
                match opts.jsonVersion with
                | 1 =>
                  match w.jsonV1 historySize with
                  | .error e => (.error ("could not convert to json: " ++ e), ev3)
                  | .ok j => (.ok (), ev3 ++ [Event.stdoutWrite (j ++ "\n")])
                | 2 =>
                  match w.jsonV2 historySize opts.threshold opts.nameStyle with
                  | .error e => (.error ("could not convert to json: " ++ e), ev3)
                  | .ok j => (.ok (), ev3 ++ [Event.stdoutWrite (j ++ "\n")])
                | _ => (.error "JSON version must be 1 or 2", ev3)
              else
                (.ok (),
                  ev3 ++ [Event.stdoutWrite
                    (w.tableString historySize opts.threshold opts.nameStyle)])

/-- Transliteration of `main` from `git-sizer.go` (lines 172-178): run
`mainImplementation`;
on error write `error: <message>` to stderr and exit with status 1,
otherwise exit with status 0. -/
def main (pr : ParseResult) (w : World) : Nat × List Event :=
  match mainImplementation pr w with
  | (.error e, evs) => (1, evs ++ [Event.stderrWrite ("error: " ++ e ++ "\n")])
  | (.ok _, evs) => (0, evs)

/-- A concrete world in which every external operation succeeds. -/
def okWorld : World :=
  ⟨"1.0", "", .ok (), .ok (), fun _ => .ok ⟨0⟩, fun _ => .ok "v1",
    fun _ _ _ => .ok "v2", fun _ _ _ => "table"⟩

/-! ## `git/git.go`: repository opening and shallow-clone detection -/

/-- The structure `git.Repository` from `git/git.go`. -/
structure Repository where
  path : String
  gitBin : String
  deriving DecidableEq, Repr

/-- Oracles for the operating system and the `git` executable used by
`git/git.go`: `findGitBin`, `git rev-parse --git-dir` (on gitbin and path),
`git rev-parse --git-path shallow` (on gitbin and gitdir), `os.Lstat`
success, and `filepath.IsAbs`. -/
structure GitWorld where
  findGitBin : Except String String
  revParseGitDir : String → String → Except String String
  revParseShallowPath : String → String → Except String String
  lstatSucceeds : String → Bool
  isAbs : String → Bool

/-- Transliteration of `smartJoin` from `git/git.go` (lines 28-33): an
absolute `relPath` is
returned as is, otherwise it is joined to `path` (`filepath.Join` modelled
as slash-separated concatenation). -/
def smartJoin (gw : GitWorld) (path relPath : String) : String :=
  if gw.isAbs relPath then relPath else path ++ "/" ++ relPath

/-- Transliteration of `GitDir` from `git/git.go` (lines 36-56): run
`git rev-parse --git-dir`; on failure propagate the (already formatted)
error; on success smart-join the trimmed output to the path. -/
def GitDir (gw : GitWorld) (gitbin path : String) : Except String String :=
  match gw.revParseGitDir gitbin path with
  | .error e => .error e
  | .ok out => .ok (smartJoin gw path out.trim)

/-- Transliteration of `IsShallow` from `git/git.go` (lines 59-74): locate
the `shallow` file
via `git rev-parse --git-path shallow`; if `os.Lstat` finds it, report a
shallow clone together with its fixed error message. -/
def IsShallow (gw : GitWorld) (gitbin gitdir : String) : Bool × Option String :=
  match gw.revParseShallowPath gitbin gitdir with
  | .error e =>
    (false, some ("could not run \x27git rev-parse --git-path shallow\x27: " ++ e))
  | .ok out =>
    let shallow := smartJoin gw gitdir out.trim
    if gw.lstatSucceeds shallow then
      (true, some "this appears to be a shallow clone; full clone required")
    else
      (false, none)

/-- Transliteration of `NewRepository` from `git/git.go` (lines 78-100):
find the `git`
executable, locate the git-dir, reject shallow clones, and otherwise return
the repository handle.  (As in the source, an `IsShallow` error with a
`false` first component is dropped.) -/
def NewRepository (gw : GitWorld) (path : String) : Except String Repository :=
  match gw.findGitBin with
  | .error e =>
    .error ("could not find \x27git\x27 executable (is it in your PATH?): " ++ e)
  | .ok gitBin =>
    match GitDir gw gitBin path with
    | .error e => .error e
    | .ok gitDir =>
      let sh := IsShallow gw gitBin gitDir
      if sh.1 then .error (sh.2.getD "")
      else .ok ⟨gitDir, gitBin⟩

/-- A concrete git world describing a shallow clone: everything succeeds and
the `shallow` file exists. -/
def shallowGitWorld : GitWorld :=
  ⟨.ok "/usr/bin/git", fun _ _ => .ok ".git", fun _ _ => .ok "shallow",
    fun _ => true, fun _ => false⟩

/-- Parsed options for the argument list `--json-version=3` (without
`--json`): everything at its default except the JSON version. -/
def jsonV3Opts : Options :=
  ⟨NameStyle.NameStyleFull, "", false, 3, 1, false, false, IncludeExcludeFilter.empty, false, []⟩

/-- Parsed options for the argument list `--json --json-version=3`. -/
def jsonV3JsonOpts : Options :=
  ⟨NameStyle.NameStyleFull, "", true, 3, 1, false, false, IncludeExcludeFilter.empty, false, []⟩

lemma foldl_rule_eq_lastMatch (rules : List (Polarity × ReferenceFilter))
    (refname : String) (acc : Bool) :
    rules.foldl (fun acc r => if r.2 refname then decide (r.1 = Polarity.Include) else acc) acc =
      match rules.reverse.find? (fun r => r.2 refname) with
      | some r => decide (r.1 = Polarity.Include)
      | none => acc := by
  induction rules using List.reverseRecOn generalizing acc with
  | nil => simp
  | append_singleton rs r ih =>
    rw [List.foldl_append]
    simp only [List.foldl_cons, List.foldl_nil, List.reverse_append, List.reverse_cons,
      List.reverse_nil, List.nil_append, List.cons_append, List.find?]
    by_cases h : r.2 refname = true
    · simp [h]
    · simp only [h, Bool.false_eq_true, if_false, cond_false]
      exact ih acc

lemma isPrefixOf_toList_iff (p q : String) :
    (p.toList.isPrefixOf q.toList = true) ↔ ∃ r : String, q = p ++ r := by
  rw [List.isPrefixOf_iff_prefix]
  constructor
  · rintro ⟨t, ht⟩
    refine ⟨⟨t⟩, String.ext ?_⟩
    have : (p ++ (⟨t⟩ : String)).data = p.data ++ t := String.data_append p ⟨t⟩
    rw [this]
    exact ht.symm
  · rintro ⟨r, rfl⟩
    exact ⟨r.data, (String.data_append p r).symm⟩

/-- C1: for every reference name and every ordered rule list assembled into an
`IncludeExcludeFilter` (as `mainImplementation` does through `filterValue.Set`
calls), the inclusion decision of `Filter` is the polarity of the last rule
whose pattern matches the name, and a name matched by no rule is excluded. -/
theorem filter_decision_is_last_matching_rule (f : IncludeExcludeFilter) (refname : String) :
    f.Filter refname = lastMatchDecision f.rules refname :=
  foldl_rule_eq_lastMatch f.rules refname false

/-- C3: a prefix rule with pattern `p` matches exactly the names equal to `p`
or extending `p` at a path-segment boundary; and the filter built by
`filterValue.Set` from the rules [include "refs/heads",
exclude "refs/heads/archive"] includes `refs/heads/main`, excludes
`refs/heads/archive/old`, and excludes `refs/headsbranch`. -/
theorem prefix_rule_segment_boundary :
    (∀ p q : String, PrefixFilter p q = true ↔ (q = p ∨ ∃ r : String, q = p ++ "/" ++ r)) ∧
    ((filterValue.Set noCompile ⟨Polarity.Include, "", false⟩
        IncludeExcludeFilter.empty "refs/heads").bind
      (fun st => filterValue.Set noCompile ⟨Polarity.Exclude, "", false⟩
        st "refs/heads/archive")).map
      (fun st => (st.Filter "refs/heads/main", st.Filter "refs/heads/archive/old",
        st.Filter "refs/headsbranch"))
      = Except.ok (true, false, false) := by
  constructor
  · intro p q
    simp only [PrefixFilter, Bool.or_eq_true, beq_iff_eq, isPrefixOf_toList_iff]
  · rfl

/-- C6: for a fixed metric, the severity of the Concern Engine is non-decreasing
in the metric value; below the per-metric baseline it is clamped to 0; and
at or above the baseline (for a doubling-like base) it is the floor of the
base-logarithm of the value-to-baseline quotient, witnessed by the two
bracketing powers of the base. -/
theorem severity_monotone_log_scale (c : ConcernConfig) (m : String) (v₁ v₂ : Nat)
    (h : v₁ ≤ v₂) :
    c.Severity m v₁ ≤ c.Severity m v₂ ∧
    (v₁ < c.reasonable m → c.Severity m v₁ = 0) ∧
    (1 < c.base → 0 < c.reasonable m → c.reasonable m ≤ v₁ →
      c.base ^ c.Severity m v₁ ≤ v₁ / c.reasonable m ∧
        v₁ / c.reasonable m < c.base ^ (c.Severity m v₁ + 1)) := by
  refine ⟨Nat.log_mono_right (Nat.div_le_div_right h), fun hlt => ?_, fun hb hr hle => ?_⟩
  · unfold ConcernConfig.Severity
    rw [Nat.div_eq_of_lt hlt, Nat.log_zero_right]
  · have hq : v₁ / c.reasonable m ≠ 0 := by
      have : 1 ≤ v₁ / c.reasonable m := (Nat.one_le_div_iff hr).mpr hle
      omega
    exact ⟨Nat.pow_log_le_self c.base hq, Nat.lt_pow_succ_log_self hb _⟩

/-- Closed instance of `severity_monotone_log_scale` at the concrete
calibration `cfg0`, metric value pair (4, 9). -/
theorem severity_monotone_log_scale_witness :
    cfg0.Severity "blobSize" 4 ≤ cfg0.Severity "blobSize" 9 ∧
    cfg0.base ^ cfg0.Severity "blobSize" 4 ≤ 4 / cfg0.reasonable "blobSize" := by
  have h := severity_monotone_log_scale cfg0 "blobSize" 4 9 (by decide)
  exact ⟨h.1, (h.2.2 (by decide) (by decide) (by decide)).1⟩

/-- C5: the reporting threshold is a natural number; the `--verbose` flag
sets it to 0 and the `--critical` flag to the high constant 30; a row is
emitted exactly when its severity is at least the threshold, so threshold 0
emits every row. -/
theorem threshold_verbose_critical :
    (∀ opts : Options, (applyVerbose opts).threshold = 0) ∧
    (∀ opts : Options, (applyCritical opts).threshold = 30) ∧
    (∀ sev : Nat, rowEmitted verboseThreshold sev = true) ∧
    (∀ th sev : Nat, rowEmitted th sev = true ↔ th ≤ sev) := by
  refine ⟨fun _ => rfl, fun _ => rfl, fun sev => ?_, fun th sev => ?_⟩
  · simp [rowEmitted, verboseThreshold]
  · simp [rowEmitted]

/-- C4: a pattern that fails to compile as a regular expression makes
`filterValue.Set` (for `--include-regexp` / `--exclude-regexp`, whose option
value has no fixed pattern) return the `invalid regexp` error without
installing any rule, and a flag-parsing error makes `mainImplementation`
return it with no event — no repository access and no scan. -/
theorem regexp_compile_failure_rejected (compile : RegexpCompiler) (v : FilterOpt)
    (st : IncludeExcludeFilter) (s : String)
    (hpat : v.pattern = "") (hre : v.regexp = true) (hc : compile s = none) :
    filterValue.Set compile v st s = .error ("invalid regexp: " ++ quoteArg s) ∧
    (∀ (e : String) (w : World), mainImplementation (ParseResult.err e) w = (.error e, [])) := by
  constructor
  · unfold filterValue.Set
    simp [hpat, hre, hc]
  · intro e w
    rfl

/-- Closed instance of `regexp_compile_failure_rejected` on the pattern `(`
with the always-failing compiler. -/
theorem regexp_compile_failure_rejected_witness :
    filterValue.Set noCompile ⟨Polarity.Include, "", true⟩ IncludeExcludeFilter.empty "(" =
      .error ("invalid regexp: " ++ quoteArg "(") :=
  (regexp_compile_failure_rejected noCompile ⟨Polarity.Include, "", true⟩
    IncludeExcludeFilter.empty "(" rfl rfl rfl).1

/-- C10: a filter option with a fixed built-in pattern parses its argument
as a Go boolean: `none` (non-boolean) yields an error and no rule, a true
value installs a rule with the declared polarity of the option, a false value
installs a rule with the inverted polarity; in particular `--branches=false`
acts as an exclude rule for `refs/heads`. -/
theorem fixed_pattern_bool_options (compile : RegexpCompiler) (v : FilterOpt)
    (st : IncludeExcludeFilter) (s : String) (hp : v.pattern ≠ "") :
    (parseBool s = none →
      filterValue.Set compile v st s = .error ("invalid syntax: " ++ quoteArg s)) ∧
    (∀ (b : Bool) (f : ReferenceFilter),
      parseBool s = some b →
      (if v.regexp then compile v.pattern else some (PrefixFilter v.pattern)) = some f →
      filterValue.Set compile v st s =
        .ok (match (if b then v.polarity else v.polarity.Inverted) with
             | .Include => st.Include f
             | .Exclude => st.Exclude f)) ∧
    (filterValue.Set compile ⟨Polarity.Include, "refs/heads", false⟩ st "false" =
      .ok (st.Exclude (PrefixFilter "refs/heads"))) := by
  refine ⟨?_, ?_, ?_⟩
  · intro h
    unfold filterValue.Set
    simp [hp, h]
  · intro b f hb hf
    cases hv : v.regexp with
    | false =>
      rw [hv] at hf
      simp only [Bool.false_eq_true, if_false, Option.some.injEq] at hf
      subst hf
      cases hpol : (if b then v.polarity else v.polarity.Inverted) <;>
        simp [filterValue.Set, hp, hb, hv, hpol]
    | true =>
      rw [hv] at hf
      simp only [eq_self_iff_true, if_true] at hf
      cases hpol : (if b then v.polarity else v.polarity.Inverted) <;>
        simp [filterValue.Set, hp, hb, hv, hf, hpol]
  · rfl

/-- Closed instance of `fixed_pattern_bool_options`: `--branches=false`
installs an exclude rule for `refs/heads`. -/
theorem fixed_pattern_bool_options_witness :
    filterValue.Set noCompile ⟨Polarity.Include, "refs/heads", false⟩
      IncludeExcludeFilter.empty "false" =
      .ok (IncludeExcludeFilter.empty.Exclude (PrefixFilter "refs/heads")) :=
  (fixed_pattern_bool_options noCompile ⟨Polarity.Include, "refs/heads", false⟩
    IncludeExcludeFilter.empty "false" (by decide)).2.2

/-- C2 (counterexample): with `--json-version=3` but without `--json`,
`mainImplementation` does not return the JSON-version error at all — it
completes successfully and the scan is performed, refuting the claim that
every argument list with an invalid JSON version is rejected. -/
theorem invalid_jsonVersion_without_json_not_rejected :
    (mainImplementation (ParseResult.ok jsonV3Opts) okWorld).1 = Except.ok () ∧
    Event.scanStarted ∈ (mainImplementation (ParseResult.ok jsonV3Opts) okWorld).2 := by
  constructor
  · rfl
  · simp [mainImplementation, jsonV3Opts, okWorld]

/-- C2 (amended): when JSON output is requested (`--json`) and the requested
JSON schema version is neither 1 nor 2, `mainImplementation` returns the
error `JSON version must be 1 or 2` with an empty event trace — before
opening the repository and before any scan work. -/
theorem invalid_jsonVersion_with_json_rejected (opts : Options) (w : World)
    (hj : opts.jsonOutput = true) (h1 : opts.jsonVersion ≠ 1) (h2 : opts.jsonVersion ≠ 2) :
    mainImplementation (ParseResult.ok opts) w = (.error "JSON version must be 1 or 2", []) := by
  have hg : (opts.jsonOutput && !(opts.jsonVersion == 1 || opts.jsonVersion == 2)) = true := by
    simp [hj, h1, h2]
  simp only [mainImplementation]
  rw [hg]
  simp

/-- Closed instance of `invalid_jsonVersion_with_json_rejected` on the
argument list `--json --json-version=3`. -/
theorem invalid_jsonVersion_with_json_rejected_witness :
    mainImplementation (ParseResult.ok jsonV3JsonOpts) okWorld =
      (.error "JSON version must be 1 or 2", []) :=
  invalid_jsonVersion_with_json_rejected jsonV3JsonOpts okWorld rfl (by decide) (by decide)

/-- C7: every failure inside `mainImplementation` is returned as an error
value; `main` alone presents it, writing `error: <message>` to stderr and
exiting with status 1, while a successful run exits with status 0; and
`mainImplementation` itself never writes an error presentation to stderr
(its only stderr write is the `--show-refs` header). -/
theorem errors_propagate_to_main :
    (∀ (pr : ParseResult) (w : World) (e : String),
      (mainImplementation pr w).1 = .error e →
      main pr w = (1, (mainImplementation pr w).2 ++
        [Event.stderrWrite ("error: " ++ e ++ "\n")])) ∧
    (∀ (pr : ParseResult) (w : World),
      (mainImplementation pr w).1 = .ok () →
      main pr w = (0, (mainImplementation pr w).2)) ∧
    (∀ (pr : ParseResult) (w : World) (s : String),
      Event.stderrWrite s ∈ (mainImplementation pr w).2 → s = showRefsHeader) := by
  refine ⟨?_, ?_, ?_⟩
  · intro pr w e h
    unfold main
    rcases hmi : mainImplementation pr w with ⟨res, evs⟩
    rw [hmi] at h
    simp only at h
    subst h
    rfl
  · intro pr w h
    unfold main
    rcases hmi : mainImplementation pr w with ⟨res, evs⟩
    rw [hmi] at h
    simp only at h
    subst h
    rfl
  · intro pr w s hmem
    rcases pr with opts | _ | e
    · simp only [mainImplementation] at hmem
      repeat' split at hmem
      all_goals simp_all
    · simp [mainImplementation] at hmem
    · simp [mainImplementation] at hmem

/-- Closed instance of `errors_propagate_to_main`: a parse error is
presented by `main` as `error: <message>` with exit status 1. -/
theorem errors_propagate_to_main_witness :
    main (ParseResult.err "bad flag") okWorld =
      (1, [Event.stderrWrite ("error: " ++ "bad flag" ++ "\n")]) :=
  errors_propagate_to_main.1 (ParseResult.err "bad flag") okWorld "bad flag" rfl

/-- C8: when the git directory of a repository contains a `shallow` file,
`NewRepository` returns no repository and exactly the error
`this appears to be a shallow clone; full clone required`; and whenever
repository opening fails, `mainImplementation` never starts a scan. -/
theorem shallow_clone_rejected (gw : GitWorld) (path gb d sp : String)
    (h1 : gw.findGitBin = .ok gb)
    (h2 : gw.revParseGitDir gb path = .ok d)
    (h3 : gw.revParseShallowPath gb (smartJoin gw path d.trim) = .ok sp)
    (h4 : gw.lstatSucceeds (smartJoin gw (smartJoin gw path d.trim) sp.trim) = true) :
    NewRepository gw path =
      .error "this appears to be a shallow clone; full clone required" ∧
    (∀ (pr : ParseResult) (w : World) (e : String), w.repoOpen = .error e →
      Event.scanStarted ∉ (mainImplementation pr w).2) := by
  constructor
  · simp [NewRepository, GitDir, IsShallow, h1, h2, h3, h4]
  · intro pr w e hre hmem
    rcases pr with opts | _ | e'
    · simp only [mainImplementation] at hmem
      repeat' split at hmem
      all_goals simp_all
    · simp [mainImplementation] at hmem
    · simp [mainImplementation] at hmem

/-- Closed instance of `shallow_clone_rejected` on the concrete shallow
world. -/
theorem shallow_clone_rejected_witness :
    NewRepository shallowGitWorld "." =
      .error "this appears to be a shallow clone; full clone required" :=
  (shallow_clone_rejected shallowGitWorld "." "/usr/bin/git" ".git" "shallow"
    rfl rfl rfl rfl).1

/-- C9: the `--show-refs` wrapper returns exactly the boolean of the
underlying filter, and toggling `--show-refs` never changes the result of
`mainImplementation` (the scan sees the same decisions and the run has the
same outcome). -/
theorem showRefs_wrapper_transparent :
    (∀ (f : String → Bool) (n : String), (showRefsFilter f n).1 = f n) ∧
    (∀ (opts : Options) (w : World),
      (mainImplementation (ParseResult.ok (opts.withShowRefs true)) w).1 =
      (mainImplementation (ParseResult.ok (opts.withShowRefs false)) w).1) := by
  have hfst : ∀ (f : String → Bool) (n : String), (showRefsFilter f n).1 = f n := by
    intro f n
    unfold showRefsFilter
    by_cases hb : f n = true
    · simp [hb]
    · simp only [Bool.not_eq_true] at hb
      simp [hb]
  refine ⟨hfst, fun opts w => ?_⟩
  have hdec : (fun n => (showRefsFilter (IncludeExcludeFilter.Filter opts.filter) n).1) =
      IncludeExcludeFilter.Filter opts.filter := funext fun n => hfst _ n
  simp only [mainImplementation, Options.withShowRefs]
  simp only [eq_self_iff_true, if_true, Bool.false_eq_true, if_false]
  rw [hdec]
  by_cases hjg : (opts.jsonOutput && !(opts.jsonVersion == 1 || opts.jsonVersion == 2)) = true
  · simp only [if_pos hjg]
  · simp only [if_neg hjg]
    rcases hcp : (if opts.cpuprofile ≠ "" then w.createProfileFile else Except.ok ()) with e | u
    · rfl
    · by_cases hv : opts.version = true
      · simp only [if_pos hv]
      · simp only [if_neg hv]
        by_cases he : opts.excessArgs ≠ []
        · simp only [if_pos he]
        · simp only [if_neg he]
          rcases hro : w.repoOpen with e | u2
          · rfl
          · rcases hsc : w.scan (IncludeExcludeFilter.Filter opts.filter) with e | hs
            · rfl
            · by_cases hjo : opts.jsonOutput = true
              · simp only [if_pos hjo]
                rcases hjv : opts.jsonVersion with _ | _ | _ | n
                · rfl
                · rcases hj1 : w.jsonV1 hs with e | j
                  · rfl
                  · rfl
                · rcases hj2 : w.jsonV2 hs opts.threshold opts.nameStyle with e | j
                  · rfl
                  · rfl
                · rfl
              · simp only [if_neg hjo]

end GitSizer
